/-
Verification of the QID core: local vector index, metadata consistency
engine, and adaptive search ranking.

Shallow embedding notes:
- Python floats are modelled as exact rationals (ℚ).  All score
  comparisons relevant here are far from the rounding error of IEEE
  doubles, so the comparison outcomes agree.
- File paths are modelled as already-absolute strings; the Python code
  normalises with Path(p).absolute() before storing or comparing.
- The filesystem is modelled as an explicit list of existing files.
- The FAISS index (external C library) is modelled in its exact
  cosine/inner-product "Flat" configuration: stored vectors in insertion
  order, search scoring every vector by inner product, sorting by
  descending score, and padding with sentinel id -1 when fewer than k
  vectors exist (the padding score value is irrelevant because the
  id ≠ -1 filter in VectorStore.search drops those rows).
-/
import Mathlib

namespace QID

/-! ## Data model (src/src/database) -/

/-- A metadata row of the `images` table (src/src/database/metadata_store.py).
Optional columns are `Option String`. -/
structure ImageRecord where
  vector_id : Nat
  file_path : String
  file_name : String
  file_size : Nat
  date_added : String
  date_modified : Option String
  tags : Option String
  description : Option String
deriving DecidableEq

/-- A file on disk: path, byte size, and modification time. -/
structure FSFile where
  path : String
  size : Nat
  mtime : String
deriving DecidableEq

/-- The filesystem as seen by the program: the list of existing files. -/
structure FileSystem where
  files : List FSFile
deriving DecidableEq

def FileSystem.existsFile (fs : FileSystem) (p : String) : Bool :=
  fs.files.any (fun f => f.path = p)

def FileSystem.statSize (fs : FileSystem) (p : String) : Nat :=
  match fs.files.find? (fun f => f.path = p) with
  | some f => f.size
  | none => 0

def FileSystem.statMtime (fs : FileSystem) (p : String) : Option String :=
  match fs.files.find? (fun f => f.path = p) with
  | some f => some f.mtime
  | none => none

/-- Basename of a path, as Python Path(p).name (text after the last /). -/
def baseName (p : String) : String :=
  (p.splitOn "/").getLastD p

/-! ## VectorStore (src/src/database/vector_store.py)

The class keeps a FAISS index plus a separate `num_vectors` counter.  We
model the index content as the list of stored embedding vectors. -/

structure VectorStore where
  dimension : Nat
  index_type : String
  vectors : List (List ℚ)
  num_vectors : Nat
  trained : Bool
deriving DecidableEq

/-- `VectorStore.add` (vector_store.py lines 84-121): trains an untrained
IVF index on the first batch, appends the embeddings, advances the
counter, and returns `list(range(start_id, self.num_vectors))`. -/
def VectorStore.add (st : VectorStore) (embeddings : List (List ℚ)) :
    List Nat × VectorStore :=
  let st0 :=
    if st.index_type = "IVF" && !st.trained then { st with trained := true }
    else st
  let start_id := st0.num_vectors
  let st1 := { st0 with
    vectors := st0.vectors ++ embeddings,
    num_vectors := st0.num_vectors + embeddings.length }
  (List.range' start_id embeddings.length, st1)

/-- A sequence of `add` calls on one index instance, returning the id list
of each call. -/
def VectorStore.addAll (st : VectorStore) :
    List (List (List ℚ)) → List (List Nat) × VectorStore
  | [] => ([], st)
  | b :: bs =>
    let r := st.add b
    let rest := r.2.addAll bs
    (r.1 :: rest.1, rest.2)

/-- Inner product of two embedding vectors. -/
def innerProduct (a b : List ℚ) : ℚ :=
  (List.zipWith (· * ·) a b).sum

/-- Insert an (id, score) pair into a list kept in descending score order. -/
def insertDesc (x : Int × ℚ) : List (Int × ℚ) → List (Int × ℚ)
  | [] => [x]
  | y :: ys => if y.2 ≤ x.2 then x :: y :: ys else y :: insertDesc x ys

/-- Sort (id, score) pairs by descending score. -/
def sortDesc : List (Int × ℚ) → List (Int × ℚ)
  | [] => []
  | x :: xs => insertDesc x (sortDesc xs)

/-- The exact inner-product FAISS search: score every stored vector, sort
descending, return k rows, padding with sentinel id -1 when fewer than k
vectors exist. -/
def faissTopK (vecs : List (List ℚ)) (q : List ℚ) (k : Nat) : List (Int × ℚ) :=
  let scored := vecs.enum.map (fun p => ((p.1 : Int), innerProduct p.2 q))
  ((sortDesc scored).take k) ++ List.replicate (k - vecs.length) ((-1 : Int), 0)

/-- `VectorStore.search` (vector_store.py lines 123-176): empty index
returns `([], [])` with no error; otherwise the raw FAISS rows are kept
when `score >= threshold and id != -1`. -/
def VectorStore.search (st : VectorStore) (q : List ℚ) (top_k : Nat)
    (threshold : ℚ) : List Int × List ℚ :=
  if st.num_vectors = 0 then ([], [])
  else
    let raw := faissTopK st.vectors q top_k
    let results := raw.filter
      (fun p => decide (threshold ≤ p.2) && decide (p.1 ≠ -1))
    (results.map Prod.fst, results.map Prod.snd)

/-! ## MetadataStore (src/src/database/metadata_store.py)

The SQLite table is modelled as the list of rows in insertion order.
`get_all` orders rows by date_added descending; only row multisets and
counts matter to the properties below, so the row list stands for the
query result. -/

structure MetadataStore where
  rows : List ImageRecord
deriving DecidableEq

def MetadataStore.count (st : MetadataStore) : Nat :=
  st.rows.length

def MetadataStore.get_all (st : MetadataStore) : List ImageRecord :=
  st.rows

/-- `MetadataStore.add` (metadata_store.py lines 72-128): INSERT hits the
UNIQUE(file_path) or PRIMARY KEY(vector_id) constraint when a matching
row exists, the IntegrityError is caught and False returned with no
commit; otherwise the row is inserted with file stats from disk and the
current clock (`now`, passed explicitly here). -/
def MetadataStore.add (st : MetadataStore) (vector_id : Nat)
    (file_path : String) (fs : FileSystem) (now : String)
    (tags description : Option String) : Bool × MetadataStore :=
  if st.rows.any (fun r => r.file_path = file_path) ||
      st.rows.any (fun r => r.vector_id = vector_id) then
    (false, st)
  else
    let rec' : ImageRecord :=
      { vector_id := vector_id
        file_path := file_path
        file_name := baseName file_path
        file_size := if fs.existsFile file_path then fs.statSize file_path else 0
        date_added := now
        date_modified := fs.statMtime file_path
        tags := tags
        description := description }
    (true, { rows := st.rows ++ [rec'] })

/-- `MetadataStore.get` (lines 158-172): the row whose vector_id matches,
or none.  Search ids arrive as FAISS Int ids. -/
def MetadataStore.get (st : MetadataStore) (vid : Int) : Option ImageRecord :=
  st.rows.find? (fun r => decide ((r.vector_id : Int) = vid))

/-- `MetadataStore.delete` (lines 221-230): `DELETE FROM images WHERE
vector_id = ?` then commit; no exception is raised when zero rows match,
so the result is True either way. -/
def MetadataStore.delete (st : MetadataStore) (vid : Nat) :
    Bool × MetadataStore :=
  (true, { rows := st.rows.filter (fun r => decide (r.vector_id ≠ vid)) })

/-! ## Combined system state

Callers hold one VectorStore and one MetadataStore (the IndexCleaner
class holds both); clean-up operations read and write this pair. -/

structure SystemState where
  vs : VectorStore
  ms : MetadataStore
deriving DecidableEq

/-- A caller deleting a metadata row through `MetadataStore.delete`: the
method only touches the SQLite table. -/
def SystemState.delete_metadata (s : SystemState) (vid : Nat) :
    Bool × SystemState :=
  let r := s.ms.delete vid
  (r.1, { s with ms := r.2 })

/-! ## IndexCleaner (src/src/ingestion/index_cleaner.py) -/

/-- Result of `scan_for_missing` (index_cleaner.py lines 45-101). -/
structure ScanResult where
  total : Nat
  found : Nat
  missing : Nat
  missing_ids : List Nat
  missing_paths : List String
deriving DecidableEq

/-- One iteration of the scan loop: bump found or record the missing row. -/
def scanRow (fs : FileSystem) (acc : ScanResult) (r : ImageRecord) : ScanResult :=
  if fs.existsFile r.file_path then
    { acc with found := acc.found + 1 }
  else
    { acc with
      missing := acc.missing + 1
      missing_ids := acc.missing_ids ++ [r.vector_id]
      missing_paths := acc.missing_paths ++ [r.file_path] }

/-- `IndexCleaner.scan_for_missing`: walk every metadata row and check
file existence.  The code early-returns on an empty table with the same
zeroed result the fold produces. -/
def scan_for_missing (ms : MetadataStore) (fs : FileSystem) : ScanResult :=
  let all := ms.get_all
  all.foldl (scanRow fs) ⟨all.length, 0, 0, [], []⟩

/-- Result of `clean_missing` (index_cleaner.py lines 103-193). -/
structure CleanResult where
  scanned : Nat
  missing : Nat
  removed : Nat
  failed : Nat
  remaining : Nat
deriving DecidableEq

/-- The removal loop of `clean_missing`: delete each missing id from the
metadata store, tallying removed/failed. -/
def removeLoop (acc : Nat × Nat × MetadataStore) : List Nat → Nat × Nat × MetadataStore
  | [] => acc
  | vid :: rest =>
    let r := acc.2.2.delete vid
    if r.1 then removeLoop (acc.1 + 1, acc.2.1, r.2) rest
    else removeLoop (acc.1, acc.2.1 + 1, r.2) rest

/-- `IndexCleaner.clean_missing`: scan, then either report (dry run or
nothing missing) or delete each missing row from MetadataStore; the FAISS
index is never touched (per-vector delete is unsupported). -/
def clean_missing (s : SystemState) (fs : FileSystem) (dry_run : Bool) :
    CleanResult × SystemState :=
  let scan := scan_for_missing s.ms fs
  let base : CleanResult :=
    { scanned := scan.total, missing := scan.missing
      removed := 0, failed := 0, remaining := scan.total }
  if scan.missing = 0 then (base, s)
  else if dry_run then (base, s)
  else
    let r := removeLoop (0, 0, s.ms) scan.missing_ids
    ({ base with
        removed := r.1
        failed := r.2.1
        remaining := scan.total - r.1 },
     { s with ms := r.2.2 })

/-- `IndexCleaner.get_orphaned_vectors` (lines 221-236): `orphaned =
vector_count - metadata_count` as a signed integer, returned as
`max(0, orphaned)`. -/
def get_orphaned_vectors (s : SystemState) : Int :=
  let orphaned : Int := (s.vs.num_vectors : Int) - (s.ms.count : Int)
  max 0 orphaned

/-- The IndexHealthReport of `validate_database_integrity` (lines 238-276). -/
structure IntegrityReport where
  vector_count : Nat
  metadata_count : Nat
  orphaned_vectors : Int
  missing_files : Nat
  missing_file_list : List String
  is_healthy : Bool
deriving DecidableEq

/-- `IndexCleaner.validate_database_integrity`: combine the missing-file
scan with the orphan count; healthy iff both are zero. -/
def validate_database_integrity (s : SystemState) (fs : FileSystem) :
    IntegrityReport :=
  let scan := scan_for_missing s.ms fs
  let orphaned := get_orphaned_vectors s
  { vector_count := s.vs.num_vectors
    metadata_count := s.ms.count
    orphaned_vectors := orphaned
    missing_files := scan.missing
    missing_file_list := scan.missing_paths
    is_healthy := decide (orphaned = 0) && decide (scan.missing = 0) }

/-! ## SearchEngine (src/src/query/search_engine.py) -/

/-- The relative threshold band chosen from the top score
(search_engine.py lines 185-190). -/
def relativeThreshold (top : ℚ) : ℚ :=
  if 7/10 < top then top * (8/10)
  else if 5/10 < top then top * (7/10)
  else top * (6/10)

/-- The adjacent-drop test of the filter walk: at index 0 there is no
previous score and no gap check; afterwards the walk breaks when
`scores[i-1] - score > gap_threshold`. -/
def gapBreak (prev : Option ℚ) (score gap : ℚ) : Bool :=
  match prev with
  | none => false
  | some p => decide (gap < p - score)

/-- The `for i, score in enumerate(scores)` loop of
`_apply_adaptive_threshold` (lines 195-213): break below the relative
threshold, break on a big adjacent drop, append the index, and break
once 20 indices are kept (checked after appending). -/
def keepWalk (relThr gap : ℚ) :
    List ℚ → Nat → Option ℚ → List Nat → List Nat
  | [], _, _, acc => acc
  | score :: rest, i, prev, acc =>
    if score < relThr then acc
    else if gapBreak prev score gap then acc
    else
      let acc2 := acc ++ [i]
      if 20 ≤ acc2.length then acc2
      else keepWalk relThr gap rest (i + 1) (some score) acc2

/-- The kept indices produced by the walk alone, before the minimum-size
backfill.  `scores[0]` is read as `headI` (the walk is only reached when
the list has at least 2 elements). -/
def adaptiveKeepRaw (scores : List ℚ) : List Nat :=
  keepWalk (relativeThreshold scores.headI) (8/100) scores 0 none []

/-- `SearchEngine._apply_adaptive_threshold` (lines 162-226): lists of
fewer than 2 scores are returned whole; otherwise run the walk, then
backfill to the first 3 when fewer than 3 were kept and at least 3
candidates exist, or to the whole list when it has fewer than 3 elements
and some were dropped. -/
def applyAdaptiveThreshold (scores : List ℚ) : List Nat :=
  if scores.length < 2 then List.range scores.length
  else
    let keep := adaptiveKeepRaw scores
    if keep.length < 3 ∧ 3 ≤ scores.length then List.range 3
    else if keep.length < scores.length ∧ scores.length < 3 then
      List.range scores.length
    else keep

/-- A hydrated search result row (search_engine.py lines 141-150). -/
structure SearchResult where
  vector_id : Int
  score : ℚ
  file_path : String
  file_name : String
  file_size : Nat
  date_added : String
  tags : Option String
  description : Option String
deriving DecidableEq

/-- Build a result dict from a metadata row (lines 141-150). -/
def mkResult (vid : Int) (score : ℚ) (r : ImageRecord) : SearchResult :=
  { vector_id := vid
    score := score
    file_path := r.file_path
    file_name := r.file_name
    file_size := r.file_size
    date_added := r.date_added
    tags := r.tags
    description := r.description }

/-- The tag filter of the hydration loop (lines 128-138): with no filter
(or the falsy empty list) every row passes; with a filter, rows with no
tags or an empty tag string are skipped, and otherwise some filter tag
must appear in the comma-split, trimmed, lower-cased tag list. -/
def passesTagFilter (filter_tags : Option (List String)) (r : ImageRecord) :
    Bool :=
  match filter_tags with
  | none => true
  | some fts =>
    if fts.isEmpty then true
    else
      match r.tags with
      | none => false
      | some t =>
        if t = "" then false
        else
          let image_tag_list := (t.splitOn ",").map
            (fun s => s.trim.toLower)
          fts.any (fun ft => image_tag_list.contains ft.toLower)

/-- The hydration loop of `SearchEngine.search` (lines 119-156): for each
(id, score), skip when no metadata row exists or the tag filter rejects
it, otherwise append the result and stop once top_k are collected. -/
def hydrate (ms : MetadataStore) (filter_tags : Option (List String))
    (top_k : Nat) :
    List (Int × ℚ) → List SearchResult → List SearchResult
  | [], acc => acc
  | (vid, score) :: rest, acc =>
    match ms.get vid with
    | none => hydrate ms filter_tags top_k rest acc
    | some r =>
      if passesTagFilter filter_tags r then
        let acc2 := acc ++ [mkResult vid score r]
        if top_k ≤ acc2.length then acc2
        else hydrate ms filter_tags top_k rest acc2
      else hydrate ms filter_tags top_k rest acc

/-- Python `not query.strip()`: the stripped query is empty exactly when
every character of the query is whitespace (strip only removes leading
and trailing whitespace, so a non-whitespace character survives it). -/
def isBlank (q : String) : Bool :=
  q.data.all Char.isWhitespace

/-- Engine configuration (constructor defaults top_k=20, threshold=0). -/
structure SearchEngineCfg where
  default_top_k : Nat
  similarity_threshold : ℚ
deriving DecidableEq

/-- `SearchEngine.search` (lines 55-160).  `encode` stands for the
external text encoder.  Python `top_k or default` and `threshold or
default` treat 0 as falsy, reproduced here.  The adaptive filter indexes
`vector_ids[i]`/`scores[i]`; its indices are always in range (the filter
returns a prefix of positions), so the `getD` defaults are never used. -/
def SearchEngine.search (encode : String → List ℚ) (cfg : SearchEngineCfg)
    (s : SystemState) (query : String) (top_k? : Option Nat)
    (threshold? : Option ℚ) (filter_tags : Option (List String))
    (adaptive_threshold : Bool) : List SearchResult :=
  if isBlank query then []
  else
    let top_k := match top_k? with
      | some k => if k = 0 then cfg.default_top_k else k
      | none => cfg.default_top_k
    let threshold := match threshold? with
      | some t => if t = 0 then cfg.similarity_threshold else t
      | none => cfg.similarity_threshold
    let query_embedding := encode query
    let found := s.vs.search query_embedding (top_k * 3) threshold
    if found.1.isEmpty then []
    else
      let filtered :=
        if adaptive_threshold && decide (1 < found.2.length) then
          let idx := applyAdaptiveThreshold found.2
          (idx.map (fun i => found.1.getD i 0),
           idx.map (fun i => found.2.getD i 0))
        else found
      hydrate s.ms filter_tags top_k (filtered.1.zip filtered.2) []

/-! ## Lemmas about the vector store -/

theorem VectorStore.add_ids (st : VectorStore) (b : List (List ℚ)) :
    (st.add b).1 = List.range' st.num_vectors b.length ∧
    (st.add b).2.num_vectors = st.num_vectors + b.length := by
  unfold VectorStore.add
  split <;> exact ⟨rfl, rfl⟩

theorem VectorStore.addAll_flat (st : VectorStore)
    (batches : List (List (List ℚ))) :
    ((st.addAll batches).1).flatten =
      List.range' st.num_vectors ((batches.map List.length).sum) ∧
    (st.addAll batches).2.num_vectors =
      st.num_vectors + ((batches.map List.length).sum) := by
  induction batches generalizing st with
  | nil => simp [VectorStore.addAll]
  | cons b bs ih =>
    obtain ⟨h1, h2⟩ := VectorStore.add_ids st b
    obtain ⟨h3, h4⟩ := ih (st.add b).2
    constructor
    · simp only [VectorStore.addAll, List.flatten_cons, h1, h3, h2,
        List.map_cons, List.sum_cons]
      rw [List.range'_append_1, Nat.add_comm]
    · simp only [VectorStore.addAll, List.map_cons, List.sum_cons]
      rw [h4, h2, Nat.add_assoc]

/-! ## Claim theorems -/

/-- Claim C2: for every batch of N vectors added to an index whose prior
count is C, `VectorStore.add` returns exactly the contiguous id list
[C, C+1, ..., C+N-1] and leaves the count at C+N; across any sequence of
adds on one instance the assigned ids, in assignment order, form the
contiguous range starting at the prior count, hence are strictly
increasing and never reused. -/
theorem C2_add_assigns_contiguous_ids (st : VectorStore)
    (b : List (List ℚ)) (batches : List (List (List ℚ))) :
    (st.add b).1 = List.range' st.num_vectors b.length ∧
    (st.add b).2.num_vectors = st.num_vectors + b.length ∧
    ((st.addAll batches).1).flatten =
      List.range' st.num_vectors ((batches.map List.length).sum) ∧
    List.Pairwise (· < ·) ((st.addAll batches).1).flatten := by
  obtain ⟨h1, h2⟩ := VectorStore.add_ids st b
  obtain ⟨h3, _⟩ := VectorStore.addAll_flat st batches
  refine ⟨h1, h2, h3, ?_⟩
  rw [h3]
  exact List.pairwise_lt_range' st.num_vectors ((batches.map List.length).sum)

/-- Claim C3: `MetadataStore.delete` and `clean_missing(dry_run=false)`
remove metadata rows only: the vector index of the system state is
unchanged (same count, same stored vectors), so deleted rows leave their
vectors orphaned in the index rather than removed. -/
theorem C3_delete_and_clean_never_touch_index (s : SystemState) (vid : Nat)
    (fs : FileSystem) :
    (s.delete_metadata vid).2.vs = s.vs ∧
    (clean_missing s fs false).2.vs = s.vs ∧
    (s.delete_metadata vid).2.vs.num_vectors = s.vs.num_vectors ∧
    (s.delete_metadata vid).2.vs.vectors = s.vs.vectors ∧
    (clean_missing s fs false).2.vs.num_vectors = s.vs.num_vectors ∧
    (clean_missing s fs false).2.vs.vectors = s.vs.vectors := by
  have hd : (s.delete_metadata vid).2.vs = s.vs := rfl
  have hc : (clean_missing s fs false).2.vs = s.vs := by
    simp only [clean_missing]
    split
    · rfl
    · simp only [Bool.false_eq_true, if_false]
  exact ⟨hd, hc, by rw [hd], by rw [hd], by rw [hc], by rw [hc]⟩

/-- Claim C4: adding a file path that is already present in the metadata
store returns false (no exception is modelled: the function is total) and
leaves the store entirely unchanged, so the count and the existing record
for that path are untouched. -/
theorem C4_duplicate_path_add_fails (st : MetadataStore) (vid : Nat)
    (p : String) (fs : FileSystem) (now : String) (tags desc : Option String)
    (h : st.rows.any (fun r => r.file_path = p) = true) :
    (st.add vid p fs now tags desc).1 = false ∧
    (st.add vid p fs now tags desc).2 = st ∧
    (st.add vid p fs now tags desc).2.count = st.count := by
  unfold MetadataStore.add
  simp [h]

/-- Witness for C4 at a one-row store and its stored path. -/
theorem C4_witness :
    ((MetadataStore.mk [⟨0, "/pics/a.jpg", "a.jpg", 7, "t0", none, none, none⟩]).add
        1 "/pics/a.jpg" ⟨[]⟩ "t1" none none).1 = false ∧
    ((MetadataStore.mk [⟨0, "/pics/a.jpg", "a.jpg", 7, "t0", none, none, none⟩]).add
        1 "/pics/a.jpg" ⟨[]⟩ "t1" none none).2 =
      MetadataStore.mk [⟨0, "/pics/a.jpg", "a.jpg", 7, "t0", none, none, none⟩] := by
  have h := C4_duplicate_path_add_fails
    (MetadataStore.mk [⟨0, "/pics/a.jpg", "a.jpg", 7, "t0", none, none, none⟩])
    1 "/pics/a.jpg" ⟨[]⟩ "t1" none none (by decide)
  exact ⟨h.1, h.2.1⟩

/-! ## Lemmas about the scan fold -/

theorem scanFold_total (fs : FileSystem) (l : List ImageRecord)
    (acc : ScanResult) : (l.foldl (scanRow fs) acc).total = acc.total := by
  induction l generalizing acc with
  | nil => rfl
  | cons r l ih =>
    rw [List.foldl_cons, ih]
    unfold scanRow
    split <;> rfl

theorem scanFold_missing (fs : FileSystem) (l : List ImageRecord)
    (acc : ScanResult) :
    (l.foldl (scanRow fs) acc).missing =
      acc.missing + (l.filter (fun r => !fs.existsFile r.file_path)).length := by
  induction l generalizing acc with
  | nil => rfl
  | cons r l ih =>
    rw [List.foldl_cons, ih]
    by_cases h : fs.existsFile r.file_path
    · simp [scanRow, h]
    · simp [scanRow, h, Nat.add_assoc, Nat.add_comm 1]

theorem scan_total_eq_count (ms : MetadataStore) (fs : FileSystem) :
    (scan_for_missing ms fs).total = ms.count := by
  unfold scan_for_missing
  rw [scanFold_total]
  rfl

/-- Claim C5: a dry-run `clean_missing` only reports: the system state
(both stores) is returned unchanged, the result has removed = 0, and
remaining equals scanned, which is the number of metadata rows. -/
theorem C5_dry_run_only_reports (s : SystemState) (fs : FileSystem) :
    (clean_missing s fs true).2 = s ∧
    (clean_missing s fs true).1.removed = 0 ∧
    (clean_missing s fs true).1.remaining = (clean_missing s fs true).1.scanned ∧
    (clean_missing s fs true).1.scanned = s.ms.count := by
  have h : clean_missing s fs true =
      ({ scanned := (scan_for_missing s.ms fs).total
         missing := (scan_for_missing s.ms fs).missing
         removed := 0, failed := 0
         remaining := (scan_for_missing s.ms fs).total }, s) := by
    simp only [clean_missing]
    split
    · rfl
    · simp only [if_true]
  rw [h]
  exact ⟨rfl, rfl, rfl, scan_total_eq_count s.ms fs⟩

/-- Claim C6: the orphan count is max(0, vector_count - metadata_count),
hence never negative; the scan's missing-file count is the number of
metadata rows whose backing file does not exist; and the integrity
report is healthy exactly when the orphan count and the missing-file
count are both zero. -/
theorem C6_orphans_and_health (s : SystemState) (fs : FileSystem) :
    get_orphaned_vectors s =
      max 0 ((s.vs.num_vectors : Int) - (s.ms.count : Int)) ∧
    0 ≤ get_orphaned_vectors s ∧
    (scan_for_missing s.ms fs).missing =
      (s.ms.rows.filter (fun r => !fs.existsFile r.file_path)).length ∧
    ((validate_database_integrity s fs).is_healthy = true ↔
      (get_orphaned_vectors s = 0 ∧ (scan_for_missing s.ms fs).missing = 0)) := by
  refine ⟨rfl, le_max_left 0 _, ?_, ?_⟩
  · unfold scan_for_missing
    rw [scanFold_missing]
    simp [MetadataStore.get_all]
  · simp only [validate_database_integrity, Bool.and_eq_true, decide_eq_true_eq]

/-! ## Lemmas about the adaptive filter walk -/

theorem keepWalk_cons (relThr gap s : ℚ) (rest : List ℚ) (i : Nat)
    (prev : Option ℚ) (acc : List Nat) :
    keepWalk relThr gap (s :: rest) i prev acc =
      if s < relThr then acc
      else if gapBreak prev s gap then acc
      else if 20 ≤ (acc ++ [i]).length then acc ++ [i]
      else keepWalk relThr gap rest (i + 1) (some s) (acc ++ [i]) := rfl

theorem keepWalk_eq_append_range' (relThr gap : ℚ) (l : List ℚ) :
    ∀ (i : Nat) (prev : Option ℚ) (acc : List Nat),
    ∃ m, keepWalk relThr gap l i prev acc = acc ++ List.range' i m := by
  induction l with
  | nil =>
    intro i prev acc
    exact ⟨0, by simp [keepWalk]⟩
  | cons s rest ih =>
    intro i prev acc
    rw [keepWalk_cons]
    by_cases h1 : s < relThr
    · exact ⟨0, by rw [if_pos h1]; simp⟩
    · rw [if_neg h1]
      by_cases h2 : gapBreak prev s gap = true
      · exact ⟨0, by rw [if_pos h2]; simp⟩
      · rw [if_neg h2]
        by_cases h3 : 20 ≤ (acc ++ [i]).length
        · exact ⟨1, by rw [if_pos h3]; simp⟩
        · rw [if_neg h3]
          obtain ⟨m, hm⟩ := ih (i + 1) (some s) (acc ++ [i])
          refine ⟨m + 1, ?_⟩
          rw [hm, List.range'_succ]
          simp

theorem keepWalk_length_le (relThr gap : ℚ) (l : List ℚ) :
    ∀ (i : Nat) (prev : Option ℚ) (acc : List Nat),
    acc.length < 20 → (keepWalk relThr gap l i prev acc).length ≤ 20 := by
  induction l with
  | nil =>
    intro i prev acc h
    simp only [keepWalk]
    omega
  | cons s rest ih =>
    intro i prev acc h
    rw [keepWalk_cons]
    by_cases h1 : s < relThr
    · rw [if_pos h1]
      omega
    · rw [if_neg h1]
      by_cases h2 : gapBreak prev s gap = true
      · rw [if_pos h2]
        omega
      · rw [if_neg h2]
        by_cases h3 : 20 ≤ (acc ++ [i]).length
        · rw [if_pos h3]
          have hlen : (acc ++ [i]).length = acc.length + 1 := by simp
          omega
        · rw [if_neg h3]
          exact ih (i + 1) (some s) (acc ++ [i]) (by omega)

/-- Claim C9: the index list returned by the adaptive filter is always
the list of positions [0, 1, ..., m-1] for some m: the filter never
reorders candidates and never skips a higher-ranked candidate while
keeping a lower-ranked one, so the survivors are the top m of the
over-fetched list. -/
theorem C9_filter_keeps_top_m (scores : List ℚ) :
    ∃ m, applyAdaptiveThreshold scores = List.range m := by
  simp only [applyAdaptiveThreshold]
  split
  · exact ⟨scores.length, rfl⟩
  · split
    · exact ⟨3, rfl⟩
    · split
      · exact ⟨scores.length, rfl⟩
      · obtain ⟨m, hm⟩ := keepWalk_eq_append_range'
          (relativeThreshold scores.headI) (8/100) scores 0 none []
        exact ⟨m, by simpa [adaptiveKeepRaw, List.range_eq_range'] using hm⟩

/-- Claim C7: the adaptive filter keeps at most 20 indices; when at
least 3 candidates exist and the threshold/gap walk kept fewer than 3,
the first 3 are kept instead, and in no case is the result of size 1 or
2 when 3 or more candidates exist. -/
theorem C7_filter_size_bounds (scores : List ℚ) :
    (applyAdaptiveThreshold scores).length ≤ 20 ∧
    (3 ≤ scores.length →
      ((adaptiveKeepRaw scores).length < 3 →
        applyAdaptiveThreshold scores = List.range 3) ∧
      (applyAdaptiveThreshold scores).length ≠ 1 ∧
      (applyAdaptiveThreshold scores).length ≠ 2) := by
  have hw : (adaptiveKeepRaw scores).length ≤ 20 :=
    keepWalk_length_le (relativeThreshold scores.headI) (8/100) scores 0 none
      [] (by simp)
  simp only [applyAdaptiveThreshold]
  split
  · rename_i hshort
    refine ⟨by simp; omega, fun h3 => absurd h3 (by omega)⟩
  · rename_i hlong
    split
    · rename_i hfill
      refine ⟨by norm_num, fun h3 => ⟨fun _ => rfl, by norm_num, by norm_num⟩⟩
    · rename_i hfill
      split
      · rename_i hsmall
        refine ⟨by simp; omega, fun h3 => absurd h3 (by omega)⟩
      · rename_i hsmall
        refine ⟨hw, fun h3 => ⟨fun hlt => absurd ⟨hlt, h3⟩ hfill, ?_, ?_⟩⟩
        · intro h1
          exact hfill ⟨by omega, h3⟩
        · intro h2
          exact hfill ⟨by omega, h3⟩

/-- Witness for C7 at the scores [1/2, 1/4, 1/8]: the walk keeps only
index 0, so the filter backfills to the first 3. -/
theorem C7_witness :
    (applyAdaptiveThreshold [1/2, 1/4, 1/8]).length ≤ 20 ∧
    applyAdaptiveThreshold [1/2, 1/4, 1/8] = List.range 3 := by
  have h := C7_filter_size_bounds [1/2, 1/4, 1/8]
  refine ⟨h.1, (h.2 (by simp)).1 ?_⟩
  norm_num [adaptiveKeepRaw, keepWalk, relativeThreshold, gapBreak]

/-- Counterexample to claim C1 as stated: on the scores
[0.95, 0.93, 0.40, 0.38] the filter output is not [0, 1]. -/
theorem C1_counterexample :
    applyAdaptiveThreshold [95/100, 93/100, 40/100, 38/100] ≠ [0, 1] := by
  norm_num [applyAdaptiveThreshold, adaptiveKeepRaw, keepWalk,
    relativeThreshold, gapBreak, List.range_succ]

/-- Claim C1 (amended): on [0.95, 0.93, 0.40, 0.38] the band is
0.80 × 0.95 = 0.76 and the threshold/gap walk keeps exactly the first 2
entries (0.93 passes, 0.40 fails the band), but the forced-minimum rule
then re-expands the kept set to the first 3, so the filter output is
[0, 1, 2]. -/
theorem C1_adaptive_example :
    relativeThreshold (95/100) = 76/100 ∧
    adaptiveKeepRaw [95/100, 93/100, 40/100, 38/100] = [0, 1] ∧
    applyAdaptiveThreshold [95/100, 93/100, 40/100, 38/100] = [0, 1, 2] := by
  refine ⟨by norm_num [relativeThreshold], ?_, ?_⟩
  · norm_num [adaptiveKeepRaw, keepWalk, relativeThreshold, gapBreak]
  · norm_num [applyAdaptiveThreshold, adaptiveKeepRaw, keepWalk,
      relativeThreshold, gapBreak, List.range_succ]

/-- Claim C8: the search entry point returns an empty list (and cannot
raise: the function is total) when the query contains no non-whitespace
character, and likewise when the vector index holds zero vectors, in
which case the index search itself returns the empty result. -/
theorem C8_search_empty_cases (encode : String → List ℚ)
    (cfg : SearchEngineCfg) (s : SystemState) (query : String)
    (tk : Option Nat) (th : Option ℚ) (ftags : Option (List String))
    (adaptive : Bool) (q : List ℚ) (k : Nat) (thr : ℚ) :
    (isBlank query = true →
      SearchEngine.search encode cfg s query tk th ftags adaptive = []) ∧
    (s.vs.num_vectors = 0 →
      SearchEngine.search encode cfg s query tk th ftags adaptive = []) ∧
    (s.vs.num_vectors = 0 → s.vs.search q k thr = ([], [])) := by
  refine ⟨?_, ?_, ?_⟩
  · intro h
    simp [SearchEngine.search, h]
  · intro h
    by_cases hq : isBlank query = true
    · simp [SearchEngine.search, hq]
    · simp [SearchEngine.search, hq, VectorStore.search, h]
  · intro h
    simp [VectorStore.search, h]

/-- Witness for C8: a whitespace query on a one-vector index, any query
on an empty index, and a direct empty-index search. -/
theorem C8_witness :
    SearchEngine.search (fun _ => []) ⟨20, 0⟩
      ⟨⟨512, "Flat", [[1]], 1, false⟩, ⟨[]⟩⟩ " " none none none true = [] ∧
    SearchEngine.search (fun _ => []) ⟨20, 0⟩
      ⟨⟨512, "Flat", [], 0, false⟩, ⟨[]⟩⟩ "dog" none none none true = [] ∧
    VectorStore.search ⟨512, "Flat", [], 0, false⟩ [] 5 0 = ([], []) := by
  have h1 := C8_search_empty_cases (fun _ => []) ⟨20, 0⟩
    ⟨⟨512, "Flat", [[1]], 1, false⟩, ⟨[]⟩⟩ " " none none none true [] 5 0
  have h2 := C8_search_empty_cases (fun _ => []) ⟨20, 0⟩
    ⟨⟨512, "Flat", [], 0, false⟩, ⟨[]⟩⟩ "dog" none none none true [] 5 0
  exact ⟨h1.1 (by decide), h2.2.1 rfl, h2.2.2 rfl⟩

/-- Claim C10: deleting a vector_id with no matching metadata row still
returns true and leaves the store unchanged, so a true return does not
imply a row was removed. -/
theorem C10_delete_absent_id_still_true (st : MetadataStore) (vid : Nat)
    (h : st.rows.all (fun r => r.vector_id ≠ vid) = true) :
    st.delete vid = (true, st) := by
  have hf : st.rows.filter (fun r => decide (r.vector_id ≠ vid)) = st.rows :=
    List.filter_eq_self.mpr (by simpa using List.all_eq_true.mp h)
  unfold MetadataStore.delete
  rw [hf]

/-- Witness for C10: delete id 5 from a store holding only id 0. -/
theorem C10_witness :
    (MetadataStore.mk [⟨0, "/pics/a.jpg", "a.jpg", 7, "t0", none, none, none⟩]).delete 5 =
      (true, MetadataStore.mk
        [⟨0, "/pics/a.jpg", "a.jpg", 7, "t0", none, none, none⟩]) :=
  C10_delete_absent_id_still_true
    (MetadataStore.mk [⟨0, "/pics/a.jpg", "a.jpg", 7, "t0", none, none, none⟩])
    5 (by decide)

end QID
